import Mathlib

/-!
Verification development for the control-toolbox Goddard repository.

The repository contains two source files:

* `Zermelo/ZermeloPrimalOCP.py` — a problem-contract class for the Zermelo
  navigation problem: scalar model functions (`h`, `state_constraint`),
  boundary conditions (`twobc`) and their Jacobian (`bcjac`), and an
  `initialize` method producing the initial trajectory guess.
* `python/main_goddard_primal_dual_casadi.py` — the continuation driver
  `main_primal_dual` for the Goddard problem: an interior-point homotopy loop
  that repeatedly calls an inner BVP-DAE Newton solve while the barrier
  weight `eps` is contracted geometrically by `alpha` until it reaches `tol`.

The scalar model functions are embedded polymorphically over a `Field K`
(instantiated at `ℚ` for executable evaluation and at `ℝ` for calculus
statements); numpy float constants are read as their exact decimal values.
The continuation driver is embedded as a fuel-indexed recursion over `ℚ`,
parameterized by an abstract inner solver `solve : T → ℚ → T × Bool`
(the `BVPDAE.solve` component and the Goddard problem contract live outside
this repository; the Boolean is `infos.success`).  `none` marks fuel
exhaustion, a modelling artifact only; all claims are settled with adequate
fuel.  The driver raising `Exception(msg)` is modelled as `Except.error msg`.
-/

namespace ZermeloPrimalOCP

/-- Parameter `self.a1 = 2.` from `__init__`. -/
def a1 {K : Type} [Field K] : K := 2

/-- Parameter `self.a2 = .1` from `__init__`. -/
def a2 {K : Type} [Field K] : K := 1/10

/-- Parameter `self.r = 2.` from `__init__`. -/
def r {K : Type} [Field K] : K := 2

/-- `self.xfinal[0] = 20.` from `__init__`. -/
def xfinal0 {K : Type} [Field K] : K := 20

/-- `self.xfinal[1] = 1.` from `__init__`. -/
def xfinal1 {K : Type} [Field K] : K := 1

/-- `self.x0 = np.zeros((2,))` from `__init__`. -/
def x0v {K : Type} [Field K] : Fin 2 → K := fun _ => 0

/-- `self.center[0] = self.xfinal[0] / 2.` from `__init__`. -/
def center0 {K : Type} [Field K] : K := xfinal0 / 2

/-- `self.center[1] = self.xfinal[1] / 2.5` from `__init__`. -/
def center1 {K : Type} [Field K] : K := xfinal1 / (5/2)

/-- Method `h(x1, d)`: the value branch is `3. + .2 * x1 * (1. - x1)`,
the `d == 1` branch is `.2 - .4 * x1`, the `d == 2` branch is
`np.full_like(x1, -4.)`, i.e. the constant `-4`, and every other `d`
gives `np.zeros_like(x1)`, i.e. `0`. -/
def h {K : Type} [Field K] (x1 : K) (d : ℕ) : K :=
  if d = 0 then 3 + 1/5 * x1 * (1 - x1)
  else if d = 1 then 1/5 - 2/5 * x1
  else if d = 2 then -4
  else 0

/-- Method `state_constraint(x0, x1, dx0, dx1)`: the value branch is
`- (x0 - center[0])**2 / a1**2 - (x1 - center[1])**2 / a2**2 + r**2`;
the `dx0 == 1` branch is `- 2. * (x0 - center[0] / 2.) / a1**2`;
the `dx1 == 1` branch is `- 2. * (x1 - center[1] / 2.5) / a2**2`;
the `dx0 == 2` branch is `- 2. / a1**2`; the `dx1 == 2` branch is
`- 2. / a2**2`; anything else gives `0`. -/
def state_constraint {K : Type} [Field K] (x0 x1 : K) (dx0 dx1 : ℕ) : K :=
  if dx0 = 0 ∧ dx1 = 0 then
    - (x0 - center0)^2 / a1^2 - (x1 - center1)^2 / a2^2 + r^2
  else if dx0 = 1 ∧ dx1 = 0 then
    - 2 * (x0 - center0 / 2) / a1^2
  else if dx0 = 0 ∧ dx1 = 1 then
    - 2 * (x1 - center1 / (5/2)) / a2^2
  else if dx0 = 2 ∧ dx1 = 0 then
    - 2 / a1^2
  else if dx0 = 0 ∧ dx1 = 2 then
    - 2 / a2^2
  else 0

/-- `np.linspace(a, b, n)`: the `n` points `a + (b - a) * k / (n - 1)`. -/
def linspace {K : Type} [Field K] (a b : K) (n : ℕ) : List K :=
  (List.range n).map fun (k : ℕ) => a + (b - a) * (k : K) / ((n : K) - 1)

/-- Method `initialize()`: `n = 101`, `time = linspace(0, 1, n)`;
`xp = zeros((6, len(time)))` with `xp[0] = linspace(x0[0], xfinal[0], n)`,
`xp[1] = concatenate(linspace(0, .6, 25), linspace(.6, 1, 76))`,
`xp[2] = full_like(time, 10.)`, `xp[-1] = 1.0`;
`z = zeros((2, len(time)))` with `z[0] = pi/2` and `z[1] = .5`.
Arrays are modelled as lists of rows so that the shape invariants are
real propositions about lengths.  (Named `initialize'` because the source
name is a reserved Lean keyword.) -/
noncomputable def initialize' : List ℝ × List (List ℝ) × List (List ℝ) :=
  ( linspace 0 1 101,
    [ linspace 0 20 101,
      linspace 0 (3/5) 25 ++ linspace (3/5) 1 76,
      List.replicate 101 (10 : ℝ),
      List.replicate 101 (0 : ℝ),
      List.replicate 101 (0 : ℝ),
      List.replicate 101 (1 : ℝ) ],
    [ List.replicate 101 (Real.pi / 2),
      List.replicate 101 ((1 : ℝ)/2) ] )

/-- Method `twobc(xp0, xpT, z0, zT)`: `bc[:2] = xp0[:2] - x0`,
`bc[2:4] = xpT[:2] - xfinal`, `bc[4] = xp0[-1]`, `bc[5] = xpT[-1] - 1.`. -/
def twobc {K : Type} [Field K] (xp0 xpT : Fin 6 → K) (_z0 _zT : Fin 2 → K) :
    Fin 6 → K :=
  fun i =>
    if i = 0 then xp0 0 - x0v 0
    else if i = 1 then xp0 1 - x0v 1
    else if i = 2 then xpT 0 - xfinal0
    else if i = 3 then xpT 1 - xfinal1
    else if i = 4 then xp0 5
    else xpT 5 - 1

/-- Method `bcjac(xp0, xpT, z0, zT)`: `gx0` is zero except
`gx0[:2,:2] = eye(2)` and `gx0[4,-1] = 1`; `gxT` is zero except
`gxT[2:4,:2] = eye(2)` and `gxT[5,-1] = 1`; `gz0` and `gzT = gz0.copy()`
are zero `(6, 2)` blocks. -/
def bcjac {K : Type} [Field K] (_xp0 _xpT : Fin 6 → K) (_z0 _zT : Fin 2 → K) :
    (Fin 6 → Fin 6 → K) × (Fin 6 → Fin 6 → K) ×
    (Fin 6 → Fin 2 → K) × (Fin 6 → Fin 2 → K) :=
  ( fun i j => if (i = 0 ∧ j = 0) ∨ (i = 1 ∧ j = 1) ∨ (i = 4 ∧ j = 5) then 1 else 0,
    fun i j => if (i = 2 ∧ j = 0) ∨ (i = 3 ∧ j = 1) ∨ (i = 5 ∧ j = 5) then 1 else 0,
    fun _ _ => 0,
    fun _ _ => 0 )

end ZermeloPrimalOCP

/-- The message of the exception raised by `main_primal_dual` when the inner
solve reports failure: `raise Exception("Primal-dual Goddard problem failed
before convergence")`. -/
def failMsg : String := "Primal-dual Goddard problem failed before convergence"

/-- The `while not convergence:` loop of `main_primal_dual`.  State carried
through one iteration: the current trajectory `sol`, the barrier weight
`eps`, the iteration counter `iter`, and (as observational instrumentation
for the spec's monotone-continuation property) the list `hist` of `eps`
values already passed to inner solves.  One iteration performs
`bvp_sol, infos = bvp_solver.solve(bvp_sol, ocp)` (the abstract
`solve sol eps`; the contract `ocp` holds `eps` via `set_eps`), raises on
`not infos.success`, computes `convergence = eps <= tol`, contracts
`eps *= alpha`, and increments `iter`.  `fuel` bounds the number of
iterations the model will unfold; `none` means the fuel ran out. -/
def contLoop {T : Type} (solve : T → ℚ → T × Bool) (alpha tol : ℚ) :
    ℕ → T → ℚ → ℕ → List ℚ → Option (Except String (T × ℚ × ℕ × List ℚ))
  | 0, _, _, _, _ => none
  | fuel + 1, sol, eps, iter, hist =>
    if (solve sol eps).2 = false then some (Except.error failMsg)
    else if eps ≤ tol then
      some (Except.ok ((solve sol eps).1, eps * alpha, iter + 1, hist ++ [eps]))
    else
      contLoop solve alpha tol fuel (solve sol eps).1 (eps * alpha) (iter + 1)
        (hist ++ [eps])

/-- The `optimal_solution` record built by `main_primal_dual` after the loop:
`dict(time=time, xp=xp, z=z, eps=eps / alpha, alpha=alpha,
exec_time=cumul_time, iter=iter)`.  The trajectory triple `(time, xp, z)` is
the abstract `sol`; wall-clock `exec_time` is not modelled. -/
structure OptimalSolution (T : Type) where
  sol : T
  eps : ℚ
  alphaVal : ℚ
  iter : ℕ
deriving DecidableEq

/-- `main_primal_dual`: runs the continuation loop from the initial guess
`sol0` with `eps = 1.`, `alpha = .5`, `tol = 1e-10`, and on success builds
the `optimal_solution` record with `eps = eps / alpha`.  The returned list
is the instrumented sequence of `eps` values passed to the inner solves. -/
def main_primal_dual {T : Type} (solve : T → ℚ → T × Bool) (fuel : ℕ)
    (sol0 : T) : Option (Except String (OptimalSolution T × List ℚ)) :=
  match contLoop solve (1/2) ((1 : ℚ)/10^10) fuel sol0 1 0 [] with
  | none => none
  | some (Except.error e) => some (Except.error e)
  | some (Except.ok (sol, epsF, iterF, histF)) =>
    some (Except.ok (OptimalSolution.mk sol (epsF / (1/2)) (1/2) iterF, histF))

/-- An always-succeeding inner solver with a trivial trajectory, used to
instantiate the abstract `BVPDAE.solve` in witnesses. -/
def unitSolve : Unit → ℚ → Unit × Bool := fun _ _ => ((), true)

/-- An always-failing inner solver over a rational-valued trajectory, used
to exercise the failure path of the driver. -/
def failSolve : ℚ → ℚ → ℚ × Bool := fun s _ => (s, false)

/-- Keys of the `optimal_solution` dict persisted by `main_primal_dual`:
`dict(time=..., xp=..., z=..., eps=..., alpha=..., exec_time=..., iter=...)`. -/
def optimal_solution_keys : List String :=
  [ "time", "xp", "z", "eps", "alpha", "exec_time", "iter" ]

/-- Keys of the dict pickled to `results_goddard_primal_dual.pickle`:
`dict(initial_solution=..., optimal_solution=...)`. -/
def dict_save_keys : List String :=
  [ "initial_solution", "optimal_solution" ]

/-- Keys of the `data_solution` dict written to
`results_goddard_primal_dual.json`:
`{'t': time.tolist(), 'xp': xp.tolist(), 'z': z.tolist()}`. -/
def data_solution_keys : List String :=
  [ "t", "xp", "z" ]

/-- Prepending `eps` to the geometric sequence started at `eps * alpha`
gives the geometric sequence started at `eps`, one term longer. -/
theorem cons_map_pow_range (eps alpha : ℚ) (m : ℕ) :
    eps :: (List.range m).map (fun k => eps * alpha * alpha ^ k) =
    (List.range (m + 1)).map (fun k => eps * alpha ^ k) := by
  rw [List.range_succ_eq_map, List.map_cons, List.map_map]
  congr 1
  · simp
  · congr 1
    funext k
    simp only [Function.comp_apply]
    rw [pow_succ]
    ring

/-- Characterization of every successful continuation run: if the loop
returns `Except.ok`, there is an `n` such that the run performed `n + 1`
inner solves at the weights `eps * alpha ^ 0, …, eps * alpha ^ n`, stopped
at the first weight that reached `tol`, left the driver weight contracted
once more to `eps * alpha ^ (n + 1)`, and advanced the counter by `n + 1`. -/
theorem contLoop_ok_spec {T : Type} (solve : T → ℚ → T × Bool) (alpha tol : ℚ) :
    ∀ (fuel : ℕ) (sol : T) (eps : ℚ) (iter : ℕ) (hist : List ℚ)
      (sol' : T) (epsF : ℚ) (iterF : ℕ) (histF : List ℚ),
      contLoop solve alpha tol fuel sol eps iter hist =
        some (Except.ok (sol', epsF, iterF, histF)) →
      ∃ n : ℕ,
        epsF = eps * alpha ^ (n + 1) ∧
        iterF = iter + (n + 1) ∧
        histF = hist ++ (List.range (n + 1)).map (fun k => eps * alpha ^ k) ∧
        eps * alpha ^ n ≤ tol ∧
        ∀ m : ℕ, m < n → tol < eps * alpha ^ m := by
  intro fuel
  induction fuel with
  | zero =>
    intro sol eps iter hist sol' epsF iterF histF hrun
    simp [contLoop] at hrun
  | succ fuel ih =>
    intro sol eps iter hist sol' epsF iterF histF hrun
    simp only [contLoop] at hrun
    by_cases hfail : (solve sol eps).2 = false
    · rw [if_pos hfail] at hrun
      simp at hrun
    · rw [if_neg hfail] at hrun
      by_cases hconv : eps ≤ tol
      · rw [if_pos hconv] at hrun
        simp only [Option.some.injEq, Except.ok.injEq, Prod.mk.injEq] at hrun
        obtain ⟨h1, h2, h3, h4⟩ := hrun
        refine ⟨0, by rw [← h2]; ring, by omega, ?_, by simpa using hconv,
          fun m hm => absurd hm (Nat.not_lt_zero m)⟩
        rw [← h4]
        simp [List.range_succ]
      · rw [if_neg hconv] at hrun
        obtain ⟨n, ha, hb, hc, hd, he⟩ := ih _ _ _ _ _ _ _ _ hrun
        refine ⟨n + 1, by rw [ha]; ring, by omega, ?_, ?_, ?_⟩
        · rw [hc, List.append_assoc]
          congr 1
          rw [List.singleton_append]
          exact cons_map_pow_range eps alpha (n + 1)
        · have hpow : eps * alpha ^ (n + 1) = eps * alpha * alpha ^ n := by ring
          rw [hpow]
          exact hd
        · intro m hm
          match m with
          | 0 =>
            simpa using lt_of_not_le hconv
          | m' + 1 =>
            have := he m' (by omega)
            have hpow : eps * alpha ^ (m' + 1) = eps * alpha * alpha ^ m' := by
              ring
            rw [hpow]
            exact this

/-- If every inner solve succeeds and some weight `eps * alpha ^ n` within
the fuel budget reaches `tol`, the continuation run returns successfully. -/
theorem contLoop_reaches {T : Type} (solve : T → ℚ → T × Bool)
    (hsucc : ∀ s e, (solve s e).2 = true) (alpha tol : ℚ) :
    ∀ (fuel : ℕ) (n : ℕ), n < fuel →
      ∀ (sol : T) (eps : ℚ) (iter : ℕ) (hist : List ℚ),
      eps * alpha ^ n ≤ tol →
      ∃ sol' epsF iterF histF,
        contLoop solve alpha tol fuel sol eps iter hist =
          some (Except.ok (sol', epsF, iterF, histF)) := by
  intro fuel
  induction fuel with
  | zero =>
    intro n hn
    exact absurd hn (Nat.not_lt_zero n)
  | succ fuel ih =>
    intro n hn sol eps iter hist hle
    have hf : ¬ (solve sol eps).2 = false := by simp [hsucc sol eps]
    by_cases hconv : eps ≤ tol
    · refine ⟨(solve sol eps).1, eps * alpha, iter + 1, hist ++ [eps], ?_⟩
      simp only [contLoop]
      rw [if_neg hf, if_pos hconv]
    · have hn0 : n ≠ 0 := by
        rintro rfl
        exact hconv (by simpa using hle)
      obtain ⟨n', rfl⟩ : ∃ n', n = n' + 1 := ⟨n - 1, by omega⟩
      have hle' : eps * alpha * alpha ^ n' ≤ tol := by
        have hpow : eps * alpha * alpha ^ n' = eps * alpha ^ (n' + 1) := by ring
        rw [hpow]
        exact hle
      obtain ⟨s', e', i', h', heq⟩ :=
        ih n' (by omega) (solve sol eps).1 (eps * alpha) (iter + 1)
          (hist ++ [eps]) hle'
      refine ⟨s', e', i', h', ?_⟩
      simp only [contLoop]
      rw [if_neg hf, if_neg hconv]
      exact heq

/-- The ceiling of `log(tol/eps_0)/log(alpha)` for the driver constants
`eps_0 = 1`, `alpha = 0.5`, `tol = 1e-10` equals `34`. -/
theorem ceil_log_tol_ratio :
    ⌈Real.log ((1:ℝ)/10^10) / Real.log ((1:ℝ)/2)⌉ = 34 := by
  have hlog2 : (0:ℝ) < Real.log 2 := Real.log_pos (by norm_num)
  have h2 : Real.log ((1:ℝ)/2) = -Real.log 2 := by
    rw [one_div, Real.log_inv]
  have h10 : Real.log ((1:ℝ)/10^10) = -Real.log (10^10) := by
    rw [one_div, Real.log_inv]
  rw [h2, h10, neg_div_neg_eq, Int.ceil_eq_iff]
  constructor
  · rw [lt_div_iff₀ hlog2]
    have h33 : ((34:ℤ) - 1 : ℝ) * Real.log 2 = Real.log ((2:ℝ)^(33:ℕ)) := by
      rw [Real.log_pow]
      norm_num
    rw [h33, Real.log_lt_log_iff (by positivity) (by positivity)]
    norm_num
  · rw [div_le_iff₀ hlog2]
    have h34 : ((34:ℤ) : ℝ) * Real.log 2 = Real.log ((2:ℝ)^(34:ℕ)) := by
      rw [Real.log_pow]
      norm_num
    rw [h34, Real.log_le_log_iff (by positivity) (by positivity)]
    norm_num

/-- The always-succeeding solver indeed always reports success. -/
theorem unitSolve_succ : ∀ (s : Unit) (e : ℚ), (unitSolve s e).2 = true :=
  fun _ _ => rfl

/-- Concrete evaluation of the continuation loop of `main_primal_dual`
(`eps_0 = 1`, `alpha = 1/2`, `tol = 1e-10`) with an always-succeeding inner
solver: it performs exactly 35 solves, at the weights `(1/2)^0, …, (1/2)^34`,
and leaves the driver weight at `(1/2)^35`. -/
theorem contLoop_main_run :
    contLoop unitSolve (1/2) ((1:ℚ)/10^10) 40 () 1 0 [] =
      some (Except.ok ((), 1 * ((1:ℚ)/2)^35, 35,
        (List.range 35).map fun k => 1 * ((1:ℚ)/2)^k)) := by
  obtain ⟨s', e', i', h', heq⟩ :=
    contLoop_reaches unitSolve unitSolve_succ (1/2) ((1:ℚ)/10^10) 40 34
      (by norm_num) () 1 0 [] (by norm_num)
  obtain ⟨n, ha, hb, hc, hd, he⟩ :=
    contLoop_ok_spec unitSolve (1/2) ((1:ℚ)/10^10) 40 () 1 0 [] s' e' i' h' heq
  have hn : n = 34 := by
    by_contra hne
    rcases lt_or_gt_of_ne hne with hlt | hgt
    · have hmono : ((1:ℚ)/2)^(33:ℕ) ≤ ((1:ℚ)/2)^n :=
        pow_le_pow_of_le_one (by norm_num) (by norm_num) (by omega)
      have hll : ((1:ℚ)/2)^(33:ℕ) ≤ (1:ℚ)/10^10 :=
        le_trans hmono (by simpa using hd)
      norm_num at hll
    · have hgt' := he 34 hgt
      norm_num at hgt'
  subst hn
  rw [heq, ha, hb, hc]
  norm_num

/-- Concrete evaluation of `main_primal_dual` itself with an
always-succeeding inner solver: 35 iterations, recorded
`eps = (1/2)^35 / (1/2)`, history `(1/2)^0, …, (1/2)^34`. -/
theorem main_run :
    main_primal_dual unitSolve 40 () =
      some (Except.ok (OptimalSolution.mk () (1 * ((1:ℚ)/2)^35 / (1/2)) (1/2) 35,
        (List.range 35).map fun k => 1 * ((1:ℚ)/2)^k)) := by
  simp only [main_primal_dual, contLoop_main_run]

/-- The last weight in the history of the concrete run is `(1/2)^34`. -/
theorem main_hist_getLast :
    ((List.range 35).map fun k => 1 * ((1:ℚ)/2)^k).getLast? =
      some (1 * ((1:ℚ)/2)^34) := by
  rw [show (35:ℕ) = 34 + 1 from rfl, List.range_succ, List.map_append]
  simp

/-- Concrete evaluation of the loop at generic-parameter values `eps_0 = 1`,
`alpha = 1/2`, `tol = 1` whose initial weight already satisfies the
tolerance: exactly one inner solve happens. -/
theorem contLoop_small_run :
    contLoop unitSolve (1/2) 1 2 () 1 0 [] =
      some (Except.ok ((), (1:ℚ)/2, 1, [(1:ℚ)])) := by
  obtain ⟨s', e', i', h', heq⟩ :=
    contLoop_reaches unitSolve unitSolve_succ (1/2) 1 2 0
      (by norm_num) () 1 0 [] (by norm_num)
  obtain ⟨n, ha, hb, hc, hd, he⟩ :=
    contLoop_ok_spec unitSolve (1/2) 1 2 () 1 0 [] s' e' i' h' heq
  have hn : n = 0 := by
    by_contra hne
    have h0 := he 0 (by omega)
    norm_num at h0
  subst hn
  rw [heq, ha, hb, hc]
  norm_num [List.range_succ]

/-- Runs of the driver loop with a failing inner solver, from two different
initial trajectories and two different initial weights: both produce the
same bare error value, the fixed exception message. -/
theorem contLoop_fail_run_a :
    contLoop failSolve (1/2) ((1:ℚ)/10^10) 10 3 1 0 [] =
      some (Except.error failMsg) := rfl

/-- Companion failing run at a different trajectory and weight. -/
theorem contLoop_fail_run_b :
    contLoop failSolve (1/2) ((1:ℚ)/10^10) 10 7 2 0 [] =
      some (Except.error failMsg) := rfl

/-- C3 (amended claim): when an inner solve reports failure
(`infos.success` false), `main_primal_dual`'s loop aborts by raising an
exception whose payload is only the fixed message string — it never returns
a failure value carrying the last successful Trajectory or the current
`eps`. -/
theorem contLoop_failure_is_bare_message {T : Type} (solve : T → ℚ → T × Bool)
    (alpha tol : ℚ) :
    ∀ (fuel : ℕ) (sol : T) (eps : ℚ) (iter : ℕ) (hist : List ℚ) (e : String),
      contLoop solve alpha tol fuel sol eps iter hist =
        some (Except.error e) →
      e = failMsg := by
  intro fuel
  induction fuel with
  | zero =>
    intro sol eps iter hist e hrun
    simp [contLoop] at hrun
  | succ fuel ih =>
    intro sol eps iter hist e hrun
    simp only [contLoop] at hrun
    by_cases hfail : (solve sol eps).2 = false
    · rw [if_pos hfail] at hrun
      simp only [Option.some.injEq, Except.error.injEq] at hrun
      exact hrun.symm
    · rw [if_neg hfail] at hrun
      by_cases hconv : eps ≤ tol
      · rw [if_pos hconv] at hrun
        simp at hrun
      · rw [if_neg hconv] at hrun
        exact ih _ _ _ _ _ hrun

/-- C3 (witness): the amended claim fired on a concrete failing run. -/
theorem contLoop_failure_is_bare_message_witness :
    "Primal-dual Goddard problem failed before convergence" = failMsg :=
  contLoop_failure_is_bare_message failSolve (1/2) ((1:ℚ)/10^10) 10 3 1 0 []
    "Primal-dual Goddard problem failed before convergence" rfl

/-- C3 (counterexample to the claim as stated): two failing runs that differ
both in the current trajectory (3 versus 7) and in the current eps (1 versus
2) surface the very same failure value, the bare fixed message; the failure
therefore carries neither the last successful Trajectory nor the current
eps. -/
theorem contLoop_failure_carries_no_payload :
    contLoop failSolve (1/2) ((1:ℚ)/10^10) 10 3 1 0 [] =
      contLoop failSolve (1/2) ((1:ℚ)/10^10) 10 7 2 0 [] ∧
    contLoop failSolve (1/2) ((1:ℚ)/10^10) 10 3 1 0 [] =
      some (Except.error failMsg) ∧
    (3:ℚ) ≠ 7 ∧ (1:ℚ) ≠ 2 := by
  refine ⟨?_, contLoop_fail_run_a, by norm_num, by norm_num⟩
  rw [contLoop_fail_run_a, contLoop_fail_run_b]

/-- C4 (amended claim): the pickled snapshot's `optimal_solution` record
carries the time grid, state/adjoint block, algebraic-control block, final
eps, elapsed solve time and iteration count, but the JSON document carries
only the time grid and the two blocks — `eps`, `exec_time` and `iter` are
absent from it. -/
theorem persisted_documents_contents :
    ( "time" ∈ optimal_solution_keys ∧ "xp" ∈ optimal_solution_keys ∧
      "z" ∈ optimal_solution_keys ∧ "eps" ∈ optimal_solution_keys ∧
      "exec_time" ∈ optimal_solution_keys ∧ "iter" ∈ optimal_solution_keys ∧
      "optimal_solution" ∈ dict_save_keys) ∧
    ( "t" ∈ data_solution_keys ∧ "xp" ∈ data_solution_keys ∧
      "z" ∈ data_solution_keys) ∧
    "eps" ∉ data_solution_keys ∧ "exec_time" ∉ data_solution_keys ∧
    "iter" ∉ data_solution_keys := by
  decide

/-- C4 (counterexample to the claim as stated): the JSON document does not
contain the final eps. -/
theorem json_document_lacks_eps : "eps" ∉ data_solution_keys := by
  decide

/-- C9: a successful continuation run always performed at least one inner
solve, and if the initial weight already satisfies the tolerance it
performed exactly one — the convergence flag starts false and is only
tested after a solve. -/
theorem contLoop_at_least_one_solve {T : Type} (solve : T → ℚ → T × Bool)
    (alpha tol eps0 : ℚ) (fuel : ℕ) (sol0 sol' : T) (epsF : ℚ) (iterF : ℕ)
    (histF : List ℚ)
    (hrun : contLoop solve alpha tol fuel sol0 eps0 0 [] =
      some (Except.ok (sol', epsF, iterF, histF))) :
    1 ≤ iterF ∧ (eps0 ≤ tol → iterF = 1) := by
  obtain ⟨n, ha, hb, hc, hd, hmin⟩ :=
    contLoop_ok_spec solve alpha tol fuel sol0 eps0 0 [] sol' epsF iterF histF
      hrun
  constructor
  · omega
  · intro h0
    have hn : n = 0 := by
      by_contra hne
      have hlt := hmin 0 (by omega)
      rw [pow_zero, mul_one] at hlt
      exact absurd h0 (not_le.mpr hlt)
    omega

/-- C9 (witness): on the concrete one-iteration run with `eps_0 = tol = 1`,
the loop executed exactly one inner solve. -/
theorem contLoop_at_least_one_solve_witness :
    1 ≤ 1 ∧ ((1:ℚ) ≤ 1 → 1 = 1) :=
  contLoop_at_least_one_solve unitSolve ((1:ℚ)/2) 1 1 2 () () ((1:ℚ)/2) 1
    [(1:ℚ)] contLoop_small_run

/-- C10: on successful termination, the eps recorded in the persisted
`optimal_solution` record (computed as `eps / alpha`) equals the weight at
which the final inner solve actually converged — the last entry of the
sequence of weights passed to inner solves — even though the driver's `eps`
was contracted once more after that solve. -/
theorem main_recorded_eps_is_last_solved {T : Type} (solve : T → ℚ → T × Bool)
    (fuel : ℕ) (sol0 : T) (opt : OptimalSolution T) (histF : List ℚ)
    (elast : ℚ)
    (hrun : main_primal_dual solve fuel sol0 = some (Except.ok (opt, histF)))
    (hlast : histF.getLast? = some elast) :
    opt.eps = elast := by
  unfold main_primal_dual at hrun
  cases hcl : contLoop solve (1/2) ((1:ℚ)/10^10) fuel sol0 1 0 [] with
  | none =>
    rw [hcl] at hrun
    simp at hrun
  | some res =>
    cases res with
    | error e =>
      rw [hcl] at hrun
      simp at hrun
    | ok tup =>
      obtain ⟨s, epsF, iterF, hF⟩ := tup
      rw [hcl] at hrun
      simp only [Option.some.injEq, Except.ok.injEq, Prod.mk.injEq] at hrun
      obtain ⟨hopt, hhist⟩ := hrun
      obtain ⟨n, ha, hb, hc, hd, hmin⟩ :=
        contLoop_ok_spec solve (1/2) ((1:ℚ)/10^10) fuel sol0 1 0 [] s epsF
          iterF hF hcl
      rw [← hhist, hc, List.nil_append] at hlast
      have hg : ((List.range (n+1)).map fun k => 1 * ((1:ℚ)/2)^k).getLast? =
          some (1 * ((1:ℚ)/2)^n) := by
        rw [List.range_succ, List.map_append]
        simp
      rw [hg, Option.some.injEq] at hlast
      subst hopt
      show epsF / (1/2) = elast
      rw [ha, ← hlast, pow_succ]
      field_simp
      ring

/-- C10 (witness): on the concrete 35-iteration run, the recorded eps,
`(1/2)^35 / (1/2)`, equals the last solved weight `(1/2)^34`. -/
theorem main_recorded_eps_is_last_solved_witness :
    (OptimalSolution.mk () (1 * ((1:ℚ)/2)^35 / (1/2)) (1/2) 35).eps =
      1 * ((1:ℚ)/2)^34 :=
  main_recorded_eps_is_last_solved unitSolve 40 ()
    (OptimalSolution.mk () (1 * ((1:ℚ)/2)^35 / (1/2)) (1/2) 35)
    ((List.range 35).map fun k => 1 * ((1:ℚ)/2)^k) (1 * ((1:ℚ)/2)^34)
    main_run main_hist_getLast

/-- C6: at the start of iteration `k` the weight passed to the contract is
`eps_0 * alpha ^ k`; the sequence of solved weights is geometric with ratio
`alpha` and strictly decreasing, and the loop exits exactly when the weight
just solved reaches `tol` (all earlier solved weights exceed `tol`). -/
theorem contLoop_eps_invariant {T : Type} (solve : T → ℚ → T × Bool)
    (alpha tol eps0 : ℚ) (h0 : 0 < alpha) (h1 : alpha < 1) (h2 : 0 < eps0)
    (fuel : ℕ) (sol0 sol' : T) (epsF : ℚ) (iterF : ℕ) (histF : List ℚ)
    (hrun : contLoop solve alpha tol fuel sol0 eps0 0 [] =
      some (Except.ok (sol', epsF, iterF, histF))) :
    histF = (List.range iterF).map (fun k => eps0 * alpha ^ k) ∧
    List.Chain' (fun a b => b = alpha * a ∧ b < a) histF ∧
    (∀ e ∈ histF.dropLast, tol < e) ∧
    (∀ e ∈ histF.getLast?, e ≤ tol) := by
  obtain ⟨n, ha, hb, hc, hd, hmin⟩ :=
    contLoop_ok_spec solve alpha tol fuel sol0 eps0 0 [] sol' epsF iterF histF
      hrun
  have hb' : iterF = n + 1 := by omega
  subst hb'
  rw [List.nil_append] at hc
  subst hc
  refine ⟨rfl, ?_, ?_, ?_⟩
  · refine (List.chain'_map _).mpr ?_
    refine (List.chain'_range_succ _ n).mpr ?_
    intro m _
    constructor
    · rw [pow_succ]
      ring
    · exact mul_lt_mul_of_pos_left
        (pow_lt_pow_right_of_lt_one₀ h0 h1 (Nat.lt_succ_self m)) h2
  · rw [List.range_succ, List.map_append, List.map_singleton,
      List.dropLast_concat]
    intro e he
    obtain ⟨k, hk, rfl⟩ := List.mem_map.mp he
    exact hmin k (List.mem_range.mp hk)
  · rw [List.range_succ, List.map_append, List.map_singleton,
      List.getLast?_concat]
    intro e he
    rw [Option.mem_def, Option.some.injEq] at he
    subst he
    exact hd

/-- C6 (witness): the invariant on the concrete one-iteration run with
`eps_0 = 1`, `alpha = 1/2`, `tol = 1`. -/
theorem contLoop_eps_invariant_witness :
    [(1:ℚ)] = (List.range 1).map (fun k => 1 * ((1:ℚ)/2) ^ k) ∧
    List.Chain' (fun a b => b = (1:ℚ)/2 * a ∧ b < a) [(1:ℚ)] ∧
    (∀ e ∈ ([(1:ℚ)]).dropLast, (1:ℚ) < e) ∧
    (∀ e ∈ ([(1:ℚ)]).getLast?, e ≤ (1:ℚ)) :=
  contLoop_eps_invariant unitSolve ((1:ℚ)/2) 1 1 one_half_pos one_half_lt_one
    one_pos 2 () () ((1:ℚ)/2) 1 [(1:ℚ)] contLoop_small_run

/-- The driver's weights first reach `tol = 1e-10` at exponent 34. -/
theorem first_weight_at_tol (n : ℕ) (hd : 1 * ((1:ℚ)/2)^n ≤ 1/10^10)
    (hmin : ∀ m < n, (1:ℚ)/10^10 < 1 * ((1:ℚ)/2)^m) : n = 34 := by
  by_contra hne
  rcases lt_or_gt_of_ne hne with hlt | hgt
  · have hmono : ((1:ℚ)/2)^(33:ℕ) ≤ ((1:ℚ)/2)^n :=
      pow_le_pow_of_le_one (by norm_num) (by norm_num) (by omega)
    have hll : ((1:ℚ)/2)^(33:ℕ) ≤ (1:ℚ)/10^10 :=
      le_trans hmono (by simpa using hd)
    norm_num at hll
  · have hgt' := hmin 34 hgt
    norm_num at hgt'

/-- C5 (amended claim): assuming every inner solve succeeds, the continuation
loop of `main_primal_dual` terminates, and it does so after exactly
`ceil(log(tol/eps_0)/log(alpha)) + 1 = 35` iterations of the while loop —
one more than the bound claimed. -/
theorem main_iterations_ceil_plus_one {T : Type} (solve : T → ℚ → T × Bool)
    (hsucc : ∀ s e, (solve s e).2 = true) (fuel : ℕ) (hfuel : 35 ≤ fuel)
    (sol0 : T) :
    (∃ opt histF, main_primal_dual solve fuel sol0 =
        some (Except.ok (opt, histF)) ∧ OptimalSolution.iter opt = 35) ∧
    (35 : ℤ) = ⌈Real.log ((1:ℝ)/10^10) / Real.log ((1:ℝ)/2)⌉ + 1 := by
  constructor
  · obtain ⟨s', e', i', h', heq⟩ :=
      contLoop_reaches solve hsucc (1/2) ((1:ℚ)/10^10) fuel 34 (by omega)
        sol0 1 0 [] (by norm_num)
    obtain ⟨n, ha, hb, hc, hd, hmin⟩ :=
      contLoop_ok_spec solve (1/2) ((1:ℚ)/10^10) fuel sol0 1 0 [] s' e' i' h'
        heq
    have hn : n = 34 := first_weight_at_tol n hd hmin
    refine ⟨OptimalSolution.mk s' (e' / (1/2)) (1/2) i', h', ?_, ?_⟩
    · unfold main_primal_dual
      rw [heq]
    · show i' = 35
      omega
  · rw [ceil_log_tol_ratio]
    decide

/-- C5 (witness): the amended claim applied to the always-succeeding solver
with fuel 40. -/
theorem main_iterations_ceil_plus_one_witness :
    (∃ opt histF, main_primal_dual unitSolve 40 () =
        some (Except.ok (opt, histF)) ∧ OptimalSolution.iter opt = 35) ∧
    (35 : ℤ) = ⌈Real.log ((1:ℝ)/10^10) / Real.log ((1:ℝ)/2)⌉ + 1 :=
  main_iterations_ceil_plus_one unitSolve unitSolve_succ 40 (by decide) ()

/-- C5 (counterexample to the claim as stated): the loop's concrete run with
an always-succeeding solver performs 35 iterations, while
`ceil(log(tol/eps_0)/log(alpha)) = 34`, so the claimed iteration bound is
exceeded. -/
theorem main_iterations_exceed_ceil :
    main_primal_dual unitSolve 40 () =
      some (Except.ok
        (OptimalSolution.mk () (1 * ((1:ℚ)/2)^35 / (1/2)) (1/2) 35,
         (List.range 35).map fun k => 1 * ((1:ℚ)/2)^k)) ∧
    ⌈Real.log ((1:ℝ)/10^10) / Real.log ((1:ℝ)/2)⌉ = 34 ∧ ¬ (35 ≤ 34) :=
  ⟨main_run, ceil_log_tol_ratio, by decide⟩

/-- C1 (code bug): the first-derivative branches of `state_constraint` are
not analytically consistent with its value branch.  At `(x0, x1) = (0, 0)`
the `dx0 = 1` branch returns `5/2` and the `dx1 = 1` branch returns `32`,
while the exact partial derivatives of the value branch there are `5` and
`80`: the code divides `center[0]` by 2 and `center[1]` by 2.5 a second
time inside the derivative branches. -/
theorem state_constraint_derivative_branches_bug :
    ZermeloPrimalOCP.state_constraint (0:ℚ) 0 1 0 = 5/2 ∧
    ZermeloPrimalOCP.state_constraint (0:ℚ) 0 0 1 = 32 ∧
    HasDerivAt (fun x0 : ℝ => ZermeloPrimalOCP.state_constraint x0 0 0 0) 5 0 ∧
    HasDerivAt (fun x1 : ℝ => ZermeloPrimalOCP.state_constraint 0 x1 0 0) 80 0 ∧
    ((5:ℚ)/2 ≠ 5) ∧ ((32:ℚ) ≠ 80) := by
  refine ⟨?_, ?_, ?_, ?_, by norm_num, by norm_num⟩
  · norm_num [ZermeloPrimalOCP.state_constraint, ZermeloPrimalOCP.center0,
      ZermeloPrimalOCP.center1, ZermeloPrimalOCP.a1, ZermeloPrimalOCP.a2,
      ZermeloPrimalOCP.xfinal0, ZermeloPrimalOCP.xfinal1]
  · norm_num [ZermeloPrimalOCP.state_constraint, ZermeloPrimalOCP.center0,
      ZermeloPrimalOCP.center1, ZermeloPrimalOCP.a1, ZermeloPrimalOCP.a2,
      ZermeloPrimalOCP.xfinal0, ZermeloPrimalOCP.xfinal1]
  · have hfun : (fun x0 : ℝ => ZermeloPrimalOCP.state_constraint x0 0 0 0) =
        (fun x0 : ℝ =>
          - (x0 - ZermeloPrimalOCP.center0)^2 / ZermeloPrimalOCP.a1^2
          - ((0:ℝ) - ZermeloPrimalOCP.center1)^2 / ZermeloPrimalOCP.a2^2
          + ZermeloPrimalOCP.r^2) := by
      funext x0
      rw [ZermeloPrimalOCP.state_constraint, if_pos (And.intro rfl rfl)]
    rw [hfun]
    convert (((((hasDerivAt_id (0:ℝ)).sub_const
        ZermeloPrimalOCP.center0).pow 2).neg.div_const
        (ZermeloPrimalOCP.a1^2)).sub_const
        (((0:ℝ) - ZermeloPrimalOCP.center1)^2 / ZermeloPrimalOCP.a2^2)).add_const
        (ZermeloPrimalOCP.r^2) using 1
    norm_num [ZermeloPrimalOCP.center0, ZermeloPrimalOCP.xfinal0,
      ZermeloPrimalOCP.a1]
  · have hfun : (fun x1 : ℝ => ZermeloPrimalOCP.state_constraint 0 x1 0 0) =
        (fun x1 : ℝ =>
          - ((0:ℝ) - ZermeloPrimalOCP.center0)^2 / ZermeloPrimalOCP.a1^2
          - (x1 - ZermeloPrimalOCP.center1)^2 / ZermeloPrimalOCP.a2^2
          + ZermeloPrimalOCP.r^2) := by
      funext x1
      rw [ZermeloPrimalOCP.state_constraint, if_pos (And.intro rfl rfl)]
    rw [hfun]
    convert ((hasDerivAt_const (0:ℝ)
        (- ((0:ℝ) - ZermeloPrimalOCP.center0)^2 / ZermeloPrimalOCP.a1^2)).sub
        ((((hasDerivAt_id (0:ℝ)).sub_const
          ZermeloPrimalOCP.center1).pow 2).div_const
          (ZermeloPrimalOCP.a2^2))).add_const (ZermeloPrimalOCP.r^2) using 1
    norm_num [ZermeloPrimalOCP.center1, ZermeloPrimalOCP.xfinal1,
      ZermeloPrimalOCP.a2]

/-- C2 (code bug): the `d = 1` branch of `h` is the exact derivative of the
value branch, but the `d = 2` branch returns the constant `-4.` instead of
the second derivative `-0.4` (derivative of `.2 - .4 * x1`): a misplaced
decimal point in `np.full_like(x1, -4.)`. -/
theorem h_second_derivative_branch_bug :
    ZermeloPrimalOCP.h (0:ℚ) 2 = -4 ∧
    HasDerivAt (fun x1 : ℝ => ZermeloPrimalOCP.h x1 0) (1/5) 0 ∧
    ZermeloPrimalOCP.h (0:ℝ) 1 = 1/5 ∧
    HasDerivAt (fun x1 : ℝ => ZermeloPrimalOCP.h x1 1) (-(2/5)) 0 ∧
    ((-4:ℝ) ≠ -(2/5)) := by
  refine ⟨?_, ?_, ?_, ?_, by norm_num⟩
  · norm_num [ZermeloPrimalOCP.h]
  · have hfun : (fun x1 : ℝ => ZermeloPrimalOCP.h x1 0) =
        (fun x1 : ℝ => 3 + 1/5 * x1 * (1 - x1)) := by
      funext x1
      rw [ZermeloPrimalOCP.h, if_pos rfl]
    rw [hfun]
    convert (((hasDerivAt_id (0:ℝ)).const_mul (1/5)).mul
        ((hasDerivAt_id (0:ℝ)).const_sub 1)).const_add 3 using 1
    norm_num
  · norm_num [ZermeloPrimalOCP.h]
  · have hfun : (fun x1 : ℝ => ZermeloPrimalOCP.h x1 1) =
        (fun x1 : ℝ => 1/5 - 2/5 * x1) := by
      funext x1
      rw [ZermeloPrimalOCP.h, if_neg (by decide), if_pos rfl]
    rw [hfun]
    convert ((hasDerivAt_id (0:ℝ)).const_mul (2/5)).const_sub (1/5) using 1
    norm_num

/-- C7: for every boundary data of the Zermelo shapes (`n_x = 6`,
`n_z = 2`), the four blocks returned by `bcjac` are the exact partial
derivatives of `twobc` with respect to `xp0`, `xpT`, `z0` and `zT`:
component `i` of `twobc`, seen as a function of the `j`-th coordinate of
the corresponding argument, has derivative equal to the `(i, j)` entry of
the corresponding Jacobian block, everywhere. -/
theorem bcjac_is_derivative_of_twobc (xp0 xpT : Fin 6 → ℝ) (z0 zT : Fin 2 → ℝ)
    (i : Fin 6) :
    (∀ j : Fin 6, HasDerivAt
      (fun s => ZermeloPrimalOCP.twobc (Function.update xp0 j s) xpT z0 zT i)
      ((ZermeloPrimalOCP.bcjac xp0 xpT z0 zT).1 i j) (xp0 j)) ∧
    (∀ j : Fin 6, HasDerivAt
      (fun s => ZermeloPrimalOCP.twobc xp0 (Function.update xpT j s) z0 zT i)
      ((ZermeloPrimalOCP.bcjac xp0 xpT z0 zT).2.1 i j) (xpT j)) ∧
    (∀ j : Fin 2, HasDerivAt
      (fun s => ZermeloPrimalOCP.twobc xp0 xpT (Function.update z0 j s) zT i)
      ((ZermeloPrimalOCP.bcjac xp0 xpT z0 zT).2.2.1 i j) (z0 j)) ∧
    (∀ j : Fin 2, HasDerivAt
      (fun s => ZermeloPrimalOCP.twobc xp0 xpT z0 (Function.update zT j s) i)
      ((ZermeloPrimalOCP.bcjac xp0 xpT z0 zT).2.2.2 i j) (zT j)) := by
  refine ⟨fun j => ?_, fun j => ?_, fun j => ?_, fun j => ?_⟩ <;>
    fin_cases i <;> fin_cases j <;>
      simp +decide [ZermeloPrimalOCP.twobc, ZermeloPrimalOCP.bcjac,
        ZermeloPrimalOCP.x0v, ZermeloPrimalOCP.xfinal0,
        ZermeloPrimalOCP.xfinal1, Function.update_apply] <;>
      first
      | exact hasDerivAt_const _ _
      | exact hasDerivAt_id _
      | exact (hasDerivAt_id _).sub_const _

/-- C8: `initialize` returns a Trajectory satisfying the data-model
invariant: the time grid has `N = 101` strictly increasing points, the
state/adjoint block has 6 rows of length 101, and the algebraic-control
block has 2 rows of length 101 — so `xp.shape[1] == z.shape[1] ==
len(time)`. -/
theorem initialize_trajectory_invariants :
    (ZermeloPrimalOCP.initialize').1.length = 101 ∧
    List.Pairwise (· < ·) (ZermeloPrimalOCP.initialize').1 ∧
    (ZermeloPrimalOCP.initialize').2.1.length = 6 ∧
    (∀ row ∈ (ZermeloPrimalOCP.initialize').2.1, row.length = 101) ∧
    (ZermeloPrimalOCP.initialize').2.2.length = 2 ∧
    (∀ row ∈ (ZermeloPrimalOCP.initialize').2.2, row.length = 101) := by
  refine ⟨?_, ?_, ?_, ?_, ?_, ?_⟩
  · simp [ZermeloPrimalOCP.initialize', ZermeloPrimalOCP.linspace]
  · show List.Pairwise (· < ·) (ZermeloPrimalOCP.linspace 0 1 101)
    rw [ZermeloPrimalOCP.linspace, List.pairwise_map]
    refine (List.pairwise_lt_range 101).imp ?_
    intro a b hab
    have hc : (a:ℝ) < b := by exact_mod_cast hab
    have h1 : ((101:ℕ):ℝ) - 1 = 100 := by norm_num
    simp only [h1, zero_add, sub_zero, one_mul]
    gcongr
  · simp [ZermeloPrimalOCP.initialize']
  · intro row hrow
    simp only [ZermeloPrimalOCP.initialize', List.mem_cons,
      List.not_mem_nil, or_false] at hrow
    rcases hrow with rfl | rfl | rfl | rfl | rfl | rfl <;>
      simp [ZermeloPrimalOCP.linspace]
  · simp [ZermeloPrimalOCP.initialize']
  · intro row hrow
    simp only [ZermeloPrimalOCP.initialize', List.mem_cons,
      List.not_mem_nil, or_false] at hrow
    rcases hrow with rfl | rfl <;> simp
